import Mathlib

/-!
Shallow embedding of `src/rust/src/r_api.rs` (the `Api` impl of the
bdk_flutter rust crate) together with spec-modelled versions of the
crate-internal helpers (`crate::psbt`, `crate::wallet`, `crate::types`)
that are not part of the provided sources.  Machine integers are modelled
as `Nat`; the f32 fee rates of the source are modelled as `Nat` sat/vbyte
(the claims under study do not depend on fractional rates).  A Rust
`panic!`/`unwrap()`/`expect` is modelled as the `Outcome.abort` result,
an `anyhow::bail!` as `Outcome.err`.
-/

namespace BdkF

/-- Typed error taxonomy (spec §7). -/
inductive ApiError
  | validationError
  | insufficientFunds
  | noRecipients
  | feeEstimationFailed
  | mismatchedNetwork
  | incompletePsbt
  | irreplaceableTransaction
  | generic
deriving DecidableEq, Repr

/-- Result of one `Api` call: `ok` a typed success, `err` a typed failure
(`anyhow::bail!` in the source), `abort` a process abort
(`unwrap`/`expect`/`panic` in the source). -/
inductive Outcome (α : Type)
  | ok (a : α)
  | err (e : ApiError)
  | abort
deriving DecidableEq, Repr

/-- A transaction outpoint `(txid, vout)`. -/
abbrev OutPoint := Nat × Nat

/-- An output script, identified abstractly. -/
abbrev Script := Nat

/-- A recipient: destination script plus amount (source `ScriptAmount`). -/
structure ScriptAmount where
  script : Script
  amount : Nat
deriving DecidableEq, Repr

/-- Keychain role: receiving (External) vs change (Internal) branch. -/
inductive KeychainKind
  | external
  | internal
deriving DecidableEq, Repr

/-- Change-spend policy governing which UTXOs automatic selection may use. -/
inductive ChangeSpendPolicy
  | changeAllowed
  | onlyChange
  | changeForbidden
deriving DecidableEq, Repr

/-- A wallet-owned UTXO (source `LocalUtxo`). -/
structure LocalUtxo where
  outpoint : OutPoint
  value : Nat
  keychain : KeychainKind
  isSpent : Bool
deriving DecidableEq, Repr

/-- An input of the unsigned transaction skeleton. -/
structure TxInS where
  previousOutput : OutPoint
  sequence : Nat
deriving DecidableEq, Repr

/-- An output of the unsigned transaction skeleton. -/
structure TxOutS where
  value : Nat
  scriptPubkey : Script
deriving DecidableEq, Repr

/-- The unsigned transaction skeleton of a PSBT. -/
structure UnsignedTx where
  txIns : List TxInS
  txOuts : List TxOutS
deriving DecidableEq, Repr

/-- Per-input PSBT metadata: the witness/non-witness UTXO value record when
present, the partial-signature set keyed by public key (modelled as
`(pubkey, signature)` pairs), and whether the input already meets its
script type's signature requirement. -/
structure InputMeta where
  utxoValue : Option Nat
  sigs : List (Nat × Nat)
  complete : Bool
deriving DecidableEq, Repr

/-- A PSBT: unsigned transaction skeleton plus per-input metadata
(spec §3, §4.4). -/
structure Psbt where
  tx : UnsignedTx
  inputs : List InputMeta
deriving DecidableEq, Repr

/-- Modelled from the spec: a caller-supplied PSBT string is either the
canonical serialization of a structurally valid PSBT or malformed text;
the crate's construct-from-bytes "validates structural correctness, fails
ValidationError otherwise" (§4.4). -/
inductive PsbtStr
  | wellFormed (p : Psbt)
  | malformed
deriving DecidableEq, Repr

/-- Modelled from the spec: `PartiallySignedTransaction::new` of
`crate::psbt`; parsing a well-formed serialization recovers the PSBT,
anything else fails with ValidationError (§4.4). -/
def PartiallySignedTransaction.new : PsbtStr → Except ApiError Psbt
  | .wellFormed p => .ok p
  | .malformed => .error .validationError

/-- Modelled from the spec: serialization to the canonical encoding;
injective, and inverted by `PartiallySignedTransaction.new`. -/
def Psbt.serialize (p : Psbt) : PsbtStr := .wellFormed p

/-- A final (extracted) transaction: the skeleton plus the per-input
witness data copied from the PSBT. -/
structure FinalTx where
  tx : UnsignedTx
  witnesses : List (List (Nat × Nat))
deriving DecidableEq, Repr

/-- A serialized final transaction string. -/
inductive TxStr
  | raw (t : FinalTx)
deriving DecidableEq, Repr

/-- Modelled from `crate::psbt`: `extract_tx` as called at
`r_api.rs:143` returns a transaction directly (there is no error path at
the call site), copying whatever signatures are present into the final
transaction's witnesses. -/
def Psbt.extract_tx (p : Psbt) : FinalTx :=
  { tx := p.tx, witnesses := p.inputs.map (·.sigs) }

/-- Sum of the output values of an unsigned transaction. -/
def txOutputSum (t : UnsignedTx) : Nat := (t.txOuts.map (·.value)).sum

/-- Sum of the input values recorded in the PSBT's per-input metadata
(missing records count 0). -/
def psbtInputSum (p : Psbt) : Nat :=
  (p.inputs.map (fun i => i.utxoValue.getD 0)).sum

/-- Modelled from the spec: fee amount of a PSBT, "summing input values
(from witness/non-witness UTXO records) minus output values" (§4.4);
`none` when some input has no value record. -/
def Psbt.fee_amount (p : Psbt) : Option Nat :=
  if p.inputs.all (fun i => i.utxoValue.isSome) then
    some (psbtInputSum p - txOutputSum p.tx)
  else none

/-- Virtual size (vbytes) estimate for a transaction with the given input
and output counts; modelled from the spec (§4.2 step 3: size grows with
the input/output sets). -/
def txVsize (nIn nOut : Nat) : Nat := 10 + 68 * nIn + 31 * nOut

/-- Modelled from the spec: fee rate of a PSBT in sat/vbyte. -/
def Psbt.fee_rate (p : Psbt) : Option Nat :=
  p.fee_amount.map (fun f => f / txVsize p.tx.txIns.length p.tx.txOuts.length)

/-- The union, keyed by public key, of two partial-signature sets; entries
of `a` win on key collision (spec §4.4: "per input, the union of
partial-signature sets (keyed by public key)"). -/
def sigUnion (a b : List (Nat × Nat)) : List (Nat × Nat) :=
  a ++ b.filter (fun kb => a.all (fun ka => ka.1 != kb.1))

/-- Per-input metadata merge used by PSBT combination. -/
def InputMeta.combine (a b : InputMeta) : InputMeta :=
  { utxoValue := match a.utxoValue with | some v => some v | none => b.utxoValue
    sigs := sigUnion a.sigs b.sigs
    complete := a.complete || b.complete }

/-- Modelled from the spec: `combine` of `crate::psbt` "merges two PSBTs
that must share an identical unsigned-transaction id"; mismatched unsigned
transactions fail with a typed error (§4.4). -/
def Psbt.combine (a b : Psbt) : Except ApiError Psbt :=
  if a.tx = b.tx then
    .ok { tx := a.tx, inputs := List.zipWith InputMeta.combine a.inputs b.inputs }
  else .error .validationError

/-- The public keys carrying a partial signature in a per-input set. -/
def sigKeys (s : List (Nat × Nat)) : List Nat := s.map Prod.fst

/-- Partial-signature key set of input `i` of a PSBT (`[]` past the end). -/
def sigKeysAt (p : Psbt) (i : Nat) : List Nat :=
  sigKeys (p.inputs.getD i { utxoValue := none, sigs := [], complete := false }).sigs

/-- Sign options passed to `Wallet::sign`; the source reads the
`is_multi_sig` field, the remaining options "select witness-vs-non-witness
trust" (spec §4.4) and are carried opaquely. -/
structure SignOptions where
  is_multi_sig : Bool
  trust_witness_utxo : Bool
deriving DecidableEq, Repr

/-- Wallet state visible to this core: the UTXO set owned by the
wallet-state collaborator (spec §6), the wallet's own unconfirmed
transactions (for fee bumping, spec §4.3), and the signing pass.
`signPass` is modelled from the spec: `sign(psbt, options)` "applies the
wallet's private key material to every input it can satisfy" and reports
whether the pass reached full completion; it returns the signed PSBT
together with that completion flag, or the underlying failure. -/
structure WalletState where
  utxos : List LocalUtxo
  unconfirmed : List (Nat × UnsignedTx)
  signPass : Psbt → Option SignOptions → Except ApiError (Psbt × Bool)

/-- `Api::serialize_psbt` (r_api.rs:126): parse, then serialize; parse
failures are propagated as typed errors. -/
def Api.serialize_psbt (psbt_str : PsbtStr) : Outcome PsbtStr :=
  match PartiallySignedTransaction.new psbt_str with
  | .ok p => .ok p.serialize
  | .error e => .err e

/-- `Api::extract_tx` (r_api.rs:140-146): parse, then extract; the
extracted transaction is returned for every successfully parsed PSBT —
the match at the call site has no other failure path. -/
def Api.extract_tx (psbt_str : PsbtStr) : Outcome TxStr :=
  match PartiallySignedTransaction.new psbt_str with
  | .ok p => .ok (.raw p.extract_tx)
  | .error e => .err e

/-- `Api::psbt_fee_rate` (r_api.rs:147-153): the source calls
`psbt.unwrap()` on the parse result, so a malformed PSBT string aborts the
process instead of yielding a typed error. -/
def Api.psbt_fee_rate (psbt_str : PsbtStr) : Outcome (Option Nat) :=
  match PartiallySignedTransaction.new psbt_str with
  | .ok p => .ok p.fee_rate
  | .error _ => .abort

/-- `Api::psbt_fee_amount` (r_api.rs:154-157): same `unwrap` pattern. -/
def Api.psbt_fee_amount (psbt_str : PsbtStr) : Outcome (Option Nat) :=
  match PartiallySignedTransaction.new psbt_str with
  | .ok p => .ok p.fee_amount
  | .error _ => .abort

/-- `Api::combine_psbt` (r_api.rs:158-165): both parses are `unwrap`ped
(abort on malformed input); a combine failure is a typed error. -/
def Api.combine_psbt (psbt_str other : PsbtStr) : Outcome PsbtStr :=
  match PartiallySignedTransaction.new psbt_str with
  | .error _ => .abort
  | .ok p =>
    match PartiallySignedTransaction.new other with
    | .error _ => .abort
    | .ok q =>
      match p.combine q with
      | .ok c => .ok c.serialize
      | .error e => .err e

/-- `Api::sign` (r_api.rs:646-672): parse failure panics; a signing-pass
failure is `unwrap`ped (abort); on a pass that reports full completion the
serialized PSBT is returned, on a partial pass it is returned only when
the supplied options carry the `is_multi_sig` flag. -/
def Api.sign (w : WalletState) (psbt_str : PsbtStr)
    (sign_options : Option SignOptions) : Outcome (Option PsbtStr) :=
  match PartiallySignedTransaction.new psbt_str with
  | .error _ => .abort
  | .ok psbt =>
    match w.signPass psbt sign_options with
    | .error _ => .abort
    | .ok (signed, finished) =>
      match finished with
      | true => .ok (some signed.serialize)
      | false =>
        match sign_options with
        | some so => if so.is_multi_sig then .ok (some signed.serialize) else .ok none
        | none => .ok none

/-- Dust threshold below which leftover value is folded into the fee
instead of creating an unspendable output (spec §4.2 step 4). -/
def DUST : Nat := 546

/-- Modelled from the spec: the script of "a fresh internal-keychain
address" used for change when no `drain_to` script is given (§4.2 step 4). -/
def CHANGE_SCRIPT : Script := 99

/-- Modelled from the spec: the script of the zero-value, unspendable
embedded-data output (§4.2 step 7). -/
def DATA_SCRIPT : Script := 98

/-- RBF setting of the builder (source `RbfValue`): the default variant or
a caller-supplied sequence value. -/
inductive RbfValue
  | rbfDefault
  | value (nsequence : Nat)
deriving DecidableEq, Repr

/-- Fee policy: exactly one of a sat/vbyte rate or an absolute amount. -/
inductive FeePolicy
  | rate (satPerVb : Nat)
  | absolute (sats : Nat)
deriving DecidableEq, Repr

/-- Fee demanded by a policy for a transaction with `nIn` inputs, `nOut`
outputs and `extraVb` extra vbytes of foreign-input satisfaction weight. -/
def FeePolicy.feeFor : FeePolicy → Nat → Nat → Nat → Nat
  | .rate r, nIn, nOut, extraVb => (txVsize nIn nOut + extraVb) * r
  | .absolute a, _, _, _ => a

/-- Modelled from the spec: the input-sequence number set by the RBF
setting (§4.2 step 6): absent → `0xFFFFFFFF`; default → `0xFFFFFFFD`; a
caller-supplied value is "required to be < 0xFFFFFFFE to remain
replaceable" and is otherwise rejected. -/
def rbfSequence : Option RbfValue → Except ApiError Nat
  | none => .ok 0xFFFFFFFF
  | some .rbfDefault => .ok 0xFFFFFFFD
  | some (.value n) => if n < 0xFFFFFFFE then .ok n else .error .generic

/-- Modelled from the spec: caller-supplied witness/non-witness data of a
foreign UTXO, as decoded by `to_input` of `crate::types`; either a
well-formed input record or malformed text. -/
inductive InputStr
  | wellFormed (meta : InputMeta)
  | malformed
deriving DecidableEq, Repr

/-- Modelled from the spec: a caller-supplied txid string, either a valid
txid or malformed text (`Txid::from_str` parses it). -/
inductive TxidStr
  | valid (txid : Nat)
  | malformed
deriving DecidableEq, Repr

/-- Modelled from the spec: a caller-supplied address string, either a
valid address carrying its script or malformed text (§4.5). -/
inductive AddrStr
  | valid (script : Script)
  | malformed
deriving DecidableEq, Repr

/-- Outpoint equality as a boolean. -/
def opEq (a b : OutPoint) : Bool := a.1 == b.1 && a.2 == b.2

/-- Look up an outpoint in the wallet's UTXO set. -/
def WalletState.findUtxo (w : WalletState) (op : OutPoint) : Option LocalUtxo :=
  w.utxos.find? (fun u => opEq u.outpoint op)

/-- Resolve the caller's must-include outpoints against the wallet's UTXO
set; `none` when some outpoint is unknown (the source then `unwrap`s the
`add_utxos` failure). -/
def resolveUtxos (w : WalletState) : List OutPoint → Option (List LocalUtxo)
  | [] => some []
  | op :: rest =>
    match w.findUtxo op with
    | none => none
    | some u => (resolveUtxos w rest).map (u :: ·)

/-- A selected input candidate: outpoint plus value (wallet or foreign). -/
structure CandUtxo where
  outpoint : OutPoint
  value : Nat
deriving DecidableEq, Repr

/-- Total value of a candidate list. -/
def sumValues (l : List CandUtxo) : Nat := (l.map (·.value)).sum

/-- View of a wallet UTXO as an input candidate. -/
def toCand (u : LocalUtxo) : CandUtxo := { outpoint := u.outpoint, value := u.value }

/-- View of a decoded foreign UTXO as an input candidate; its value comes
from the explicit witness/non-witness record (0 when absent). -/
def foreignCand (f : OutPoint × InputMeta × Nat) : CandUtxo :=
  { outpoint := f.1, value := f.2.1.utxoValue.getD 0 }

/-- Extra vbytes contributed by the foreign UTXOs' satisfaction-weight
estimates (weight units divided by 4). -/
def foreignExtra (l : List (OutPoint × InputMeta × Nat)) : Nat :=
  (l.map (fun f => f.2.2 / 4)).sum

/-- Extra vbytes as read off the raw foreign-UTXO argument. -/
def foreignVb : Option (OutPoint × InputStr × Nat) → Nat
  | none => 0
  | some (_, _, wt) => wt / 4

/-- Decode the foreign-UTXO argument; the source `expect`s the result of
`add_foreign_utxo`, so malformed input data aborts the process. -/
def decodeForeign : Option (OutPoint × InputStr × Nat) →
    Outcome (List (OutPoint × InputMeta × Nat))
  | none => .ok []
  | some (op, .wellFormed m, wt) => .ok [(op, m, wt)]
  | some (_, .malformed, _) => .abort

/-- Whether the change-spend policy lets automatic selection draw a UTXO
of the given keychain (spec §4.2 step 2). -/
def ChangeSpendPolicy.allows : ChangeSpendPolicy → KeychainKind → Bool
  | .changeAllowed, _ => true
  | .onlyChange, .internal => true
  | .onlyChange, .external => false
  | .changeForbidden, .internal => false
  | .changeForbidden, .external => true

/-- UTXOs available to automatic selection: unspent, not excluded as
unspendable, not already manually selected, and allowed by the
change-spend policy. -/
def eligible (w : WalletState) (unspendable mustOps : List OutPoint)
    (cp : ChangeSpendPolicy) : List LocalUtxo :=
  w.utxos.filter (fun u =>
    !u.isSpent && !(unspendable.any (fun op => opEq op u.outpoint)) &&
      !(mustOps.any (fun op => opEq op u.outpoint)) && cp.allows u.keychain)

/-- Modelled from the spec: automatic selection draws candidates until the
selected value covers the target plus the fee at the current input count,
recomputing the fee as inputs are added (§4.2 steps 2-3); `none` when the
candidates run out (InsufficientFunds). -/
def greedy (pol : FeePolicy) (rs nOutCh extraVb : Nat) :
    List CandUtxo → List CandUtxo → Nat → Option (List CandUtxo)
  | cands, sel, total =>
    if rs + pol.feeFor sel.length nOutCh extraVb ≤ total then some sel
    else
      match cands with
      | [] => none
      | c :: rest => greedy pol rs nOutCh extraVb rest (sel ++ [c]) (total + c.value)

/-- Input-set choice (spec §4.2 steps 1-2, 5): with `manually_selected_only`
the set is fixed to the must-include inputs; `drain_wallet` sweeps all
eligible UTXOs; otherwise greedy automatic selection tops up the
must-include set. -/
def chooseSelected (man drain : Bool) (pol : FeePolicy) (rs nOutCh extraVb : Nat)
    (base cands : List CandUtxo) : Option (List CandUtxo) :=
  if man then some base
  else if drain then some (base ++ cands)
  else greedy pol rs nOutCh extraVb cands base (sumValues base)

/-- The details record returned alongside the PSBT (net values and fee). -/
structure TransactionDetails where
  fee : Nat
  sent : Nat
  received : Nat
deriving DecidableEq, Repr

/-- Source `BdkTxBuilderResult`: serialized PSBT plus details. -/
abbrev BdkTxBuilderResult := PsbtStr × TransactionDetails

/-- Modelled from the spec: assemble the build plan from the selected
inputs (§4.2 steps 3-4, 7): check sufficiency against recipients plus the
fee computed with a change output, emit leftover at or above the dust
threshold as a change output to `drain_to` or a fresh internal address,
fold sub-dust leftover into the fee, and append the zero-value data
output when an embedded payload is present. -/
def assemble (recipients : List ScriptAmount) (hasData : Bool)
    (drainTo : Option Script) (seq : Nat) (pol : FeePolicy) (extraVb : Nat)
    (selected : List CandUtxo) : Except ApiError BdkTxBuilderResult :=
  let totalIn := sumValues selected
  let rs := (recipients.map (·.amount)).sum
  let nOutBase := recipients.length + (if hasData then 1 else 0)
  let feeW := pol.feeFor selected.length (nOutBase + 1) extraVb
  if totalIn < rs + feeW then .error .insufficientFunds
  else
    let leftover := totalIn - (rs + feeW)
    let changeOuts : List TxOutS :=
      if DUST ≤ leftover then
        [{ value := leftover, scriptPubkey := drainTo.getD CHANGE_SCRIPT }]
      else []
    let fee := if DUST ≤ leftover then feeW else feeW + leftover
    let txOuts :=
      recipients.map (fun r => TxOutS.mk r.amount r.script) ++
        (if hasData then [TxOutS.mk 0 DATA_SCRIPT] else []) ++ changeOuts
    let tx : UnsignedTx :=
      { txIns := selected.map (fun u => TxInS.mk u.outpoint seq), txOuts := txOuts }
    let psbt : Psbt :=
      { tx := tx, inputs := selected.map (fun u => InputMeta.mk (some u.value) [] false) }
    .ok (psbt.serialize,
      { fee := fee, sent := totalIn, received := if DUST ≤ leftover then leftover else 0 })

/-- Builder configuration accumulated by `Api::tx_builder_finish` before
`finish` runs (mirrors the setter calls of r_api.rs:190-240). -/
structure TxBuilder where
  recipients : List ScriptAmount
  changePolicy : ChangeSpendPolicy
  mustSpend : List LocalUtxo
  unspendable : List OutPoint
  manuallySelectedOnly : Bool
  feePolicy : Option FeePolicy
  drainWallet : Bool
  drainTo : Option Script
  foreignUtxos : List (OutPoint × InputMeta × Nat)
  rbf : Option RbfValue
  data : List Nat

/-- The two sequential fee-setter calls of r_api.rs:210-215 acting on the
builder's single fee-policy slot: `fee_rate` is applied first,
`fee_absolute` second, each overwriting the slot. -/
def applyFeeSetters (fee_rate fee_absolute : Option Nat) : Option FeePolicy :=
  let s := match fee_rate with
    | some r => some (FeePolicy.rate r)
    | none => none
  match fee_absolute with
  | some a => some (FeePolicy.absolute a)
  | none => s

/-- The fee policy `finish` works with: the slot's content, or the default
1 sat/vbyte rate when no setter ran. -/
def polOf (fee_rate fee_absolute : Option Nat) : FeePolicy :=
  (applyFeeSetters fee_rate fee_absolute).getD (.rate 1)

/-- Modelled from the spec: `TxBuilder::finish` (§4.2): reject a build
with no recipients unless draining, fix the RBF sequence, choose the
input set, and assemble the plan. -/
def txBuilderFinishCore (w : WalletState) (b : TxBuilder) :
    Except ApiError BdkTxBuilderResult :=
  if b.recipients.isEmpty && !b.drainWallet then .error .noRecipients
  else
    match rbfSequence b.rbf with
    | .error e => .error e
    | .ok seq =>
      let pol := b.feePolicy.getD (.rate 1)
      let base := b.mustSpend.map toCand ++ b.foreignUtxos.map foreignCand
      let extraVb := foreignExtra b.foreignUtxos
      let cands :=
        (eligible w b.unspendable (b.mustSpend.map (·.outpoint)) b.changePolicy).map toCand
      let rs := (b.recipients.map (·.amount)).sum
      let nOutCh := b.recipients.length + (if b.data.isEmpty then 0 else 1) + 1
      match chooseSelected b.manuallySelectedOnly b.drainWallet pol rs nOutCh extraVb
          base cands with
      | none => .error .insufficientFunds
      | some selected =>
        assemble b.recipients (!b.data.isEmpty) b.drainTo seq pol extraVb selected

/-- Lift a `finish` result into the call outcome. -/
def exceptToOutcome : Except ApiError BdkTxBuilderResult → Outcome BdkTxBuilderResult
  | .ok r => .ok r
  | .error e => .err e

/-- `Api::tx_builder_finish` (r_api.rs:172-252): resolve the must-include
outpoints (the `add_utxos` result is `unwrap`ped — unknown outpoints abort
the process), decode the foreign UTXO (its `add_foreign_utxo` result is
`expect`ed — malformed data aborts the process), accumulate the builder
configuration in source order, and run `finish`. -/
def Api.tx_builder_finish (w : WalletState) (recipients : List ScriptAmount)
    (utxos : List OutPoint) (foreign_utxo : Option (OutPoint × InputStr × Nat))
    (unspendable : List OutPoint) (change_policy : ChangeSpendPolicy)
    (manually_selected_only : Bool) (fee_rate : Option Nat)
    (fee_absolute : Option Nat) (drain_wallet : Bool) (drain_to : Option Script)
    (rbf : Option RbfValue) (data : List Nat) : Outcome BdkTxBuilderResult :=
  match resolveUtxos w utxos with
  | none => .abort
  | some mustSpend =>
    match decodeForeign foreign_utxo with
    | .abort => .abort
    | .err e => .err e
    | .ok fors =>
      exceptToOutcome (txBuilderFinishCore w
        { recipients := recipients, changePolicy := change_policy,
          mustSpend := mustSpend, unspendable := unspendable,
          manuallySelectedOnly := manually_selected_only,
          feePolicy := applyFeeSetters fee_rate fee_absolute,
          drainWallet := drain_wallet, drainTo := drain_to,
          foreignUtxos := fors, rbf := rbf, data := data })

/-- Fee-bump builder configuration (source `BumpFeeTxBuilder`). -/
structure BumpFeeTxBuilder where
  txid : Nat
  feeRate : Nat
  allowShrinking : Option Script
  rbf : Option RbfValue
deriving DecidableEq, Repr

/-- The RBF setter calls of r_api.rs:279-284 in source order: a supplied
`n_sequence` first runs `enable_rbf_with_sequence`, then a true
`enable_rbf` runs `enable_rbf`, each overwriting the builder's single RBF
slot. -/
def bumpApplyRbf (b : BumpFeeTxBuilder) (n_sequence : Option Nat)
    (enable_rbf : Bool) : BumpFeeTxBuilder :=
  let b1 := match n_sequence with
    | some n => { b with rbf := some (RbfValue.value n) }
    | none => b
  if enable_rbf then { b1 with rbf := some RbfValue.rbfDefault } else b1

/-- Decode the `allow_shrinking` address argument; the source `unwrap`s
`Address::from_str`, so a malformed address aborts the process. -/
def decodeShrink : Option AddrStr → Outcome (Option Script)
  | none => .ok none
  | some (.valid s) => .ok (some s)
  | some .malformed => .abort

/-- Modelled from the spec: `BumpFeeTxBuilder::finish` (§4.3): the
replacement reuses the original inputs with the RBF-determined sequence
and the original outputs, re-feed at the new rate; an `allow_shrinking`
output absorbs the fee. -/
def finishBump (orig : UnsignedTx) (b : BumpFeeTxBuilder) :
    Except ApiError BdkTxBuilderResult :=
  match rbfSequence b.rbf with
  | .error e => .error e
  | .ok seq =>
    let txIns := orig.txIns.map (fun i => TxInS.mk i.previousOutput seq)
    let fee := (txVsize txIns.length orig.txOuts.length) * b.feeRate
    let txOuts := match b.allowShrinking with
      | none => orig.txOuts
      | some s => orig.txOuts.map (fun o =>
          if o.scriptPubkey == s then TxOutS.mk (o.value - fee) o.scriptPubkey else o)
    let psbt : Psbt :=
      { tx := { txIns := txIns, txOuts := txOuts },
        inputs := txIns.map (fun _ => InputMeta.mk none [] false) }
    .ok (psbt.serialize, { fee := fee, sent := 0, received := 0 })

/-- `Api::bump_fee_tx_builder_finish` (r_api.rs:255-295): the txid string
is parsed with `unwrap` (malformed input aborts), `build_fee_bump`
failures are typed errors (confirmed or foreign transactions are
irreplaceable, spec §4.3), the `allow_shrinking` address is parsed with
`unwrap`, and the RBF setters run in source order before `finish`. -/
def Api.bump_fee_tx_builder_finish (w : WalletState) (txid : TxidStr)
    (fee_rate : Nat) (allow_shrinking : Option AddrStr) (enable_rbf : Bool)
    (n_sequence : Option Nat) : Outcome BdkTxBuilderResult :=
  match txid with
  | .malformed => .abort
  | .valid t =>
    match w.unconfirmed.find? (fun q => q.1 == t) with
    | none => .err .irreplaceableTransaction
    | some orig =>
      match decodeShrink allow_shrinking with
      | .abort => .abort
      | .err e => .err e
      | .ok shrink =>
        let b0 : BumpFeeTxBuilder :=
          { txid := t, feeRate := fee_rate, allowShrinking := shrink, rbf := none }
        let b := bumpApplyRbf b0 n_sequence enable_rbf
        exceptToOutcome (finishBump orig.2 b)

/-! Concrete fixtures used by witnesses and counterexamples. -/

/-- A wallet holding one 100000-sat external UTXO. -/
def W1 : WalletState :=
  { utxos := [{ outpoint := (1, 0), value := 100000, keychain := .external, isSpent := false }],
    unconfirmed := [],
    signPass := fun p _ => .ok (p, true) }

/-- A wallet whose signing pass reports only partial completion. -/
def W2 : WalletState :=
  { utxos := [], unconfirmed := [], signPass := fun p _ => .ok (p, false) }

/-- A wallet holding one 10000-sat external UTXO. -/
def W6 : WalletState :=
  { utxos := [{ outpoint := (3, 0), value := 10000, keychain := .external, isSpent := false }],
    unconfirmed := [],
    signPass := fun p _ => .ok (p, true) }

/-- A wallet holding one 9500-sat external UTXO. -/
def W7 : WalletState :=
  { utxos := [{ outpoint := (2, 0), value := 9500, keychain := .external, isSpent := false }],
    unconfirmed := [],
    signPass := fun p _ => .ok (p, true) }

/-- An unconfirmed one-input, one-output transaction owned by `W10`. -/
def TX0 : UnsignedTx :=
  { txIns := [{ previousOutput := (4, 0), sequence := 1 }],
    txOuts := [{ value := 500, scriptPubkey := 7 }] }

/-- A wallet owning the unconfirmed transaction `TX0` under txid 77. -/
def W10 : WalletState :=
  { utxos := [], unconfirmed := [(77, TX0)], signPass := fun p _ => .ok (p, true) }

/-- The shared unsigned transaction of the combination fixtures. -/
def TXC : UnsignedTx :=
  { txIns := [{ previousOutput := (8, 0), sequence := 0 }],
    txOuts := [{ value := 900, scriptPubkey := 7 }] }

/-- A PSBT over `TXC` carrying a partial signature for public key 1. -/
def A3 : Psbt :=
  { tx := TXC, inputs := [{ utxoValue := some 1000, sigs := [(1, 11)], complete := false }] }

/-- A PSBT over `TXC` carrying a partial signature for public key 2. -/
def B3 : Psbt :=
  { tx := TXC, inputs := [{ utxoValue := some 1000, sigs := [(2, 22)], complete := false }] }

/-- A valid PSBT over a different unsigned transaction than `TXC`, with a
different input count (two inputs). -/
def D3 : Psbt :=
  { tx := { txIns := [{ previousOutput := (8, 0), sequence := 0 },
                      { previousOutput := (8, 1), sequence := 0 }],
            txOuts := [{ value := 900, scriptPubkey := 7 }] },
    inputs := [{ utxoValue := some 600, sigs := [(3, 33)], complete := false },
               { utxoValue := some 700, sigs := [], complete := false }] }

/-- A structurally valid PSBT whose single input does not meet its
script's signature requirement. -/
def P8 : Psbt :=
  { tx := { txIns := [{ previousOutput := (5, 0), sequence := 4294967295 }],
            txOuts := [{ value := 1000, scriptPubkey := 7 }] },
    inputs := [{ utxoValue := some 2000, sigs := [], complete := false }] }

/-- Expected PSBT of the successful `W1` build with default RBF. -/
def PS1 : PsbtStr :=
  Psbt.serialize
    { tx := { txIns := [{ previousOutput := (1, 0), sequence := 4294967293 }],
              txOuts := [{ value := 50000, scriptPubkey := 7 },
                         { value := 49860, scriptPubkey := 99 }] },
      inputs := [{ utxoValue := some 100000, sigs := [], complete := false }] }

/-- Expected details of the successful `W1` build with default RBF. -/
def DET1 : TransactionDetails := { fee := 140, sent := 100000, received := 49860 }

/-- Expected PSBT of the `W1` build supplying both fee setters. -/
def PS5 : PsbtStr :=
  Psbt.serialize
    { tx := { txIns := [{ previousOutput := (1, 0), sequence := 4294967295 }],
              txOuts := [{ value := 50000, scriptPubkey := 7 },
                         { value := 49800, scriptPubkey := 99 }] },
      inputs := [{ utxoValue := some 100000, sigs := [], complete := false }] }

/-- Expected details of the `W1` build supplying both fee setters. -/
def DET5 : TransactionDetails := { fee := 200, sent := 100000, received := 49800 }

/-- Expected PSBT of the `W7` build whose sub-dust leftover folds into
the fee. -/
def PS7 : PsbtStr :=
  Psbt.serialize
    { tx := { txIns := [{ previousOutput := (2, 0), sequence := 4294967295 }],
              txOuts := [{ value := 9000, scriptPubkey := 7 }] },
      inputs := [{ utxoValue := some 9500, sigs := [], complete := false }] }

/-- Expected details of the `W7` dust-fold build. -/
def DET7 : TransactionDetails := { fee := 500, sent := 9500, received := 0 }

/-- Expected PSBT of the `W10` fee bump with `enable_rbf` set. -/
def PSB : PsbtStr :=
  Psbt.serialize
    { tx := { txIns := [{ previousOutput := (4, 0), sequence := 4294967293 }],
              txOuts := [{ value := 500, scriptPubkey := 7 }] },
      inputs := [{ utxoValue := none, sigs := [], complete := false }] }

/-- Expected details of the `W10` fee bump. -/
def DETB : TransactionDetails := { fee := 218, sent := 0, received := 0 }

/-- A fee-bump builder fixture. -/
def B0 : BumpFeeTxBuilder :=
  { txid := 77, feeRate := 2, allowShrinking := none, rbf := none }

/-- Expected PSBT of the manual-only `W1` build that also supplies a
foreign UTXO: both the must-include and the foreign outpoint are spent. -/
def PF : Psbt :=
  { tx := { txIns := [{ previousOutput := (1, 0), sequence := 4294967295 },
                      { previousOutput := (9, 9), sequence := 4294967295 }],
            txOuts := [{ value := 50000, scriptPubkey := 7 },
                       { value := 109692, scriptPubkey := 99 }] },
    inputs := [{ utxoValue := some 100000, sigs := [], complete := false },
               { utxoValue := some 60000, sigs := [], complete := false }] }

/-- Expected details of the manual-plus-foreign `W1` build. -/
def DETF : TransactionDetails := { fee := 308, sent := 160000, received := 109692 }

/-! Helper lemmas. -/

theorem opEq_iff {a b : OutPoint} : opEq a b = true ↔ a = b := by
  cases a; cases b
  simp [opEq, Prod.ext_iff, Bool.and_eq_true]

theorem resolveUtxos_map {w : WalletState} :
    ∀ {ops : List OutPoint} {l : List LocalUtxo},
      resolveUtxos w ops = some l → l.map (·.outpoint) = ops := by
  intro ops
  induction ops with
  | nil =>
    intro l h
    simp only [resolveUtxos, Option.some.injEq] at h
    subst h; rfl
  | cons op rest ih =>
    intro l h
    simp only [resolveUtxos] at h
    cases hf : w.findUtxo op with
    | none => rw [hf] at h; exact absurd h (by simp)
    | some u =>
      rw [hf] at h
      cases hr : resolveUtxos w rest with
      | none => rw [hr] at h; exact absurd h (by simp)
      | some l' =>
        rw [hr] at h
        simp only [Option.map_some', Option.some.injEq] at h
        subst h
        have hu : u.outpoint = op := by
          have := List.find?_some hf
          exact opEq_iff.mp this
        simp [hu, ih hr]

theorem map_value_mkOuts (recipients : List ScriptAmount) :
    ((recipients.map (fun r => TxOutS.mk r.amount r.script)).map (·.value)) =
      recipients.map (·.amount) := by
  induction recipients with
  | nil => rfl
  | cons a t ih => simp [ih]

theorem map_prevOut_mkIns (l : List CandUtxo) (seq : Nat) :
    ((l.map (fun u => TxInS.mk u.outpoint seq)).map (·.previousOutput)) =
      l.map (·.outpoint) := by
  induction l with
  | nil => rfl
  | cons a t ih => simp [ih]

theorem map_outpoint_toCand (l : List LocalUtxo) :
    ((l.map toCand).map (·.outpoint)) = l.map (·.outpoint) := by
  induction l with
  | nil => rfl
  | cons a t ih => simp [ih, toCand]

theorem map_outpoint_foreignCand (l : List (OutPoint × InputMeta × Nat)) :
    ((l.map foreignCand).map (·.outpoint)) = l.map (·.1) := by
  induction l with
  | nil => rfl
  | cons a t ih => simp [ih, foreignCand]

theorem sum_inputMeta (l : List CandUtxo) :
    (((l.map (fun u => InputMeta.mk (some u.value) [] false)).map
      (fun i => i.utxoValue.getD 0)).sum) = sumValues l := by
  induction l with
  | nil => rfl
  | cons a t ih => simp [sumValues, ih]; rfl

theorem sum_data_outs (c : Bool) :
    (((if c then [TxOutS.mk 0 DATA_SCRIPT] else []).map (·.value)).sum) = 0 := by
  cases c <;> simp

theorem decodeForeign_extra {f : Option (OutPoint × InputStr × Nat)}
    {fors : List (OutPoint × InputMeta × Nat)}
    (h : decodeForeign f = Outcome.ok fors) : foreignExtra fors = foreignVb f := by
  cases f with
  | none =>
    simp only [decodeForeign, Outcome.ok.injEq] at h
    subst h; rfl
  | some t =>
    obtain ⟨op, istr, wt⟩ := t
    cases istr with
    | wellFormed m =>
      simp only [decodeForeign, Outcome.ok.injEq] at h
      subst h
      simp [foreignExtra, foreignVb]
    | malformed => simp [decodeForeign] at h

theorem assemble_ok_inv
    {recipients : List ScriptAmount} {hasData : Bool} {drainTo : Option Script}
    {seq : Nat} {pol : FeePolicy} {extraVb : Nat} {selected : List CandUtxo}
    {ps : PsbtStr} {det : TransactionDetails}
    (h : assemble recipients hasData drainTo seq pol extraVb selected =
      Except.ok (ps, det)) :
    ∃ p, ps = Psbt.serialize p ∧
      p.tx.txIns = selected.map (fun u => TxInS.mk u.outpoint seq) ∧
      p.inputs = selected.map (fun u => InputMeta.mk (some u.value) [] false) ∧
      sumValues selected = txOutputSum p.tx + det.fee ∧
      pol.feeFor selected.length (recipients.length + (if hasData then 1 else 0) + 1)
          extraVb ≤ det.fee ∧
      det.fee < pol.feeFor selected.length
          (recipients.length + (if hasData then 1 else 0) + 1) extraVb + DUST := by
  simp only [assemble] at h
  by_cases h1 : sumValues selected <
      (recipients.map (·.amount)).sum +
        pol.feeFor selected.length (recipients.length + (if hasData then 1 else 0) + 1)
          extraVb
  · rw [if_pos h1] at h
    exact absurd h (by simp)
  · rw [if_neg h1] at h
    by_cases hd : DUST ≤ sumValues selected -
        ((recipients.map (·.amount)).sum +
          pol.feeFor selected.length (recipients.length + (if hasData then 1 else 0) + 1)
            extraVb)
    · rw [if_pos hd, if_pos hd, if_pos hd] at h
      simp only [Except.ok.injEq, Prod.mk.injEq] at h
      obtain ⟨hps, hdet⟩ := h
      subst hps; subst hdet
      refine ⟨_, rfl, rfl, rfl, ?_, ?_, ?_⟩
      · simp only [txOutputSum, List.map_append, List.sum_append, map_value_mkOuts,
          sum_data_outs, List.map_cons, List.map_nil, List.sum_cons, List.sum_nil]
        omega
      · exact Nat.le_refl _
      · have hD : DUST = 546 := rfl
        dsimp only
        omega
    · rw [if_neg hd, if_neg hd, if_neg hd] at h
      simp only [Except.ok.injEq, Prod.mk.injEq] at h
      obtain ⟨hps, hdet⟩ := h
      subst hps; subst hdet
      refine ⟨_, rfl, rfl, rfl, ?_, ?_, ?_⟩
      · simp only [txOutputSum, List.map_append, List.sum_append, map_value_mkOuts,
          sum_data_outs, List.map_nil, List.sum_nil]
        omega
      · exact Nat.le_add_right _ _
      · have hD : DUST = 546 := rfl
        dsimp only
        omega

theorem finish_ok_inv
    {w : WalletState} {recipients : List ScriptAmount} {utxos : List OutPoint}
    {foreign_utxo : Option (OutPoint × InputStr × Nat)} {unspendable : List OutPoint}
    {change_policy : ChangeSpendPolicy} {man : Bool} {fr fa : Option Nat}
    {dw : Bool} {dt : Option Script} {rbf : Option RbfValue} {data : List Nat}
    {ps : PsbtStr} {det : TransactionDetails}
    (h : Api.tx_builder_finish w recipients utxos foreign_utxo unspendable
      change_policy man fr fa dw dt rbf data = Outcome.ok (ps, det)) :
    ∃ must fors seq selected,
      resolveUtxos w utxos = some must ∧
      decodeForeign foreign_utxo = Outcome.ok fors ∧
      rbfSequence rbf = Except.ok seq ∧
      (man = true → selected = must.map toCand ++ fors.map foreignCand) ∧
      assemble recipients (!data.isEmpty) dt seq (polOf fr fa) (foreignExtra fors)
        selected = Except.ok (ps, det) := by
  unfold Api.tx_builder_finish at h
  cases hres : resolveUtxos w utxos with
  | none => rw [hres] at h; exact absurd h (by simp)
  | some must =>
    rw [hres] at h
    cases hfor : decodeForeign foreign_utxo with
    | abort => rw [hfor] at h; exact absurd h (by simp)
    | err e => rw [hfor] at h; exact absurd h (by simp)
    | ok fors =>
      rw [hfor] at h
      simp only [txBuilderFinishCore] at h
      by_cases h0 : (recipients.isEmpty && !dw) = true
      · rw [if_pos h0] at h
        exact absurd h (by simp [exceptToOutcome])
      · rw [if_neg h0] at h
        cases hseq : rbfSequence rbf with
        | error e => rw [hseq] at h; exact absurd h (by simp [exceptToOutcome])
        | ok seq =>
          rw [hseq] at h
          cases hsel : chooseSelected man dw (applyFeeSetters fr fa |>.getD (.rate 1))
              ((recipients.map (·.amount)).sum)
              (recipients.length + (if data.isEmpty then 0 else 1) + 1)
              (foreignExtra fors)
              (must.map toCand ++ fors.map foreignCand)
              ((eligible w unspendable (must.map (·.outpoint)) change_policy).map toCand)
              with
          | none => rw [hsel] at h; exact absurd h (by simp [exceptToOutcome])
          | some selected =>
            rw [hsel] at h
            dsimp only at h
            refine ⟨must, fors, seq, selected, rfl, rfl, rfl, ?_, ?_⟩
            · intro hm
              subst hm
              simp [chooseSelected] at hsel
              exact hsel.symm
            · cases hass : assemble recipients (!data.isEmpty) dt seq
                  ((applyFeeSetters fr fa).getD (.rate 1)) (foreignExtra fors)
                  selected with
              | error e =>
                rw [hass] at h
                exact absurd h (by simp [exceptToOutcome])
              | ok r =>
                rw [hass] at h
                simp only [exceptToOutcome, Outcome.ok.injEq] at h
                rw [h] at hass
                exact hass

theorem zipWith_getD {α β γ : Type} (f : α → β → γ) (da : α) (db : β) (dd : γ) :
    ∀ (a : List α) (b : List β) (i : Nat), i < a.length → i < b.length →
      (List.zipWith f a b).getD i dd = f (a.getD i da) (b.getD i db) := by
  intro a
  induction a with
  | nil => intro b i h1 h2; simp at h1
  | cons x xs ih =>
    intro b i h1 h2
    cases b with
    | nil => simp at h2
    | cons y ys =>
      cases i with
      | zero => simp
      | succ j =>
        simp only [List.zipWith_cons_cons, List.getD_cons_succ]
        exact ih ys j (by simpa using h1) (by simpa using h2)

theorem mem_sigKeys_sigUnion (a b : List (Nat × Nat)) (k : Nat) :
    k ∈ sigKeys (sigUnion a b) ↔ k ∈ sigKeys a ∨ k ∈ sigKeys b := by
  unfold sigUnion sigKeys
  simp only [List.map_append, List.mem_append, List.mem_map, List.mem_filter]
  constructor
  · rintro (⟨x, hx, rfl⟩ | ⟨x, ⟨hxb, _⟩, rfl⟩)
    · exact Or.inl ⟨x, hx, rfl⟩
    · exact Or.inr ⟨x, hxb, rfl⟩
  · rintro (⟨x, hx, rfl⟩ | ⟨x, hxb, rfl⟩)
    · exact Or.inl ⟨x, hx, rfl⟩
    · by_cases hk : ∃ y ∈ a, y.1 = x.1
      · obtain ⟨y, hy, hyx⟩ := hk
        exact Or.inl ⟨y, hy, hyx⟩
      · refine Or.inr ⟨x, ⟨hxb, ?_⟩, rfl⟩
        simp only [List.all_eq_true, bne_iff_ne]
        intro y hy hxy
        exact hk ⟨y, hy, hxy⟩

/-! Claim theorems. -/

/-- C1: the spec requires every Api operation to report malformed
caller-supplied input as a typed error value and never abort the process;
the code instead `unwrap`s/`panic`s on the parse results of
`psbt_fee_rate`, `combine_psbt`, `sign` and `bump_fee_tx_builder_finish`,
so each of these aborts on malformed input. -/
theorem malformed_input_aborts_process :
    Api.psbt_fee_rate PsbtStr.malformed = Outcome.abort ∧
    Api.combine_psbt PsbtStr.malformed PsbtStr.malformed = Outcome.abort ∧
    Api.sign W2 PsbtStr.malformed none = Outcome.abort ∧
    Api.bump_fee_tx_builder_finish W10 TxidStr.malformed 2 none false none =
      Outcome.abort :=
  ⟨rfl, rfl, rfl, rfl⟩

/-- C2: `Api::sign` returns the serialized PSBT when the signing pass
reports full completion; on a partial pass it returns the serialized PSBT
exactly when the supplied options carry the multisig flag, and `none`
otherwise (including when no options are supplied). -/
theorem sign_partial_multisig_semantics (w : WalletState) (p signed : Psbt)
    (opts : Option SignOptions) (finished : Bool)
    (h : w.signPass p opts = Except.ok (signed, finished)) :
    Api.sign w p.serialize opts =
      (if finished then Outcome.ok (some signed.serialize)
       else
        match opts with
        | some so =>
          if so.is_multi_sig then Outcome.ok (some signed.serialize)
          else Outcome.ok none
        | none => Outcome.ok none) := by
  simp only [Api.sign, Psbt.serialize, PartiallySignedTransaction.new]
  rw [h]
  cases finished with
  | true => simp
  | false =>
    cases opts with
    | none => simp
    | some so => by_cases hso : so.is_multi_sig <;> simp [hso]

/-- C2 witness: a concrete partial pass with the multisig flag set still
returns the serialized PSBT. -/
theorem sign_partial_multisig_semantics_witness :
    Api.sign W2 P8.serialize (some { is_multi_sig := true, trust_witness_utxo := false }) =
      Outcome.ok (some P8.serialize) :=
  sign_partial_multisig_semantics W2 P8 P8
    (some { is_multi_sig := true, trust_witness_utxo := false }) false rfl

/-- C5 counterexample: a call supplying both `fee_rate` and `fee_absolute`
is expressible and is not rejected — it succeeds, with the later
`fee_absolute` setter having overwritten the rate in the builder's single
fee-policy slot. -/
theorem fee_rate_and_absolute_both_accepted :
    Api.tx_builder_finish W1 [{ script := 7, amount := 50000 }] [(1, 0)] none []
        ChangeSpendPolicy.changeAllowed true (some 5) (some 200) false none none [] =
      Outcome.ok (PS5, DET5) ∧
    applyFeeSetters (some 5) (some 200) = some (FeePolicy.absolute 200) :=
  ⟨rfl, rfl⟩

/-- C5 amended: the builder holds a single fee-policy slot; the two
setters run in source order (rate first, absolute second), each
overwriting the slot, so at `finish` exactly one policy is in effect —
the absolute amount whenever `fee_absolute` is supplied, the rate
otherwise. -/
theorem fee_setters_last_wins (fr fa : Option Nat) :
    applyFeeSetters fr fa =
      (match fa with
       | some a => some (FeePolicy.absolute a)
       | none => fr.map FeePolicy.rate) := by
  cases fa <;> cases fr <;> rfl

/-- C8 counterexample: `Api::extract_tx` succeeds on a structurally valid
PSBT whose input does not meet its script's signature requirement, rather
than failing with IncompletePsbt. -/
theorem extract_tx_succeeds_incomplete :
    (P8.inputs.all (fun i => i.complete)) = false ∧
    Api.extract_tx P8.serialize = Outcome.ok (TxStr.raw (Psbt.extract_tx P8)) :=
  ⟨rfl, rfl⟩

/-- C8 amended: for every structurally valid PSBT, `Api::extract_tx`
succeeds and yields the transaction assembled from whatever signatures
are present, with no completeness check; malformed input fails with
ValidationError; IncompletePsbt is never produced. -/
theorem extract_tx_total_behavior (p : Psbt) (s : PsbtStr) :
    Api.extract_tx p.serialize =
      Outcome.ok (TxStr.raw { tx := p.tx, witnesses := p.inputs.map (·.sigs) }) ∧
    Api.extract_tx PsbtStr.malformed = Outcome.err ApiError.validationError ∧
    Api.extract_tx s ≠ Outcome.err ApiError.incompletePsbt := by
  refine ⟨rfl, rfl, ?_⟩
  cases s <;> simp [Api.extract_tx, PartiallySignedTransaction.new]

/-- C9 counterexample: a call with malformed foreign-UTXO data aborts the
process (the source `expect`s the `add_foreign_utxo` result) instead of
failing with ValidationError. -/
theorem foreign_utxo_malformed_aborts_concrete :
    Api.tx_builder_finish W1 [{ script := 7, amount := 50000 }] []
        (some ((9, 9), InputStr.malformed, 400)) [] ChangeSpendPolicy.changeAllowed
        false none none false none none [] = Outcome.abort ∧
    (Outcome.abort : Outcome BdkTxBuilderResult) ≠
      Outcome.err ApiError.validationError :=
  ⟨rfl, by simp⟩

/-- C9 amended: `tx_builder_finish` accepts at most one foreign UTXO (an
optional triple of outpoint, input-data string and satisfaction-weight
estimate); well-formed data is decoded and added, while malformed
foreign-UTXO data always aborts the process rather than returning a typed
ValidationError. -/
theorem foreign_utxo_single_and_abort (w : WalletState)
    (recipients : List ScriptAmount) (utxos : List OutPoint)
    (unspendable : List OutPoint) (cp : ChangeSpendPolicy) (man : Bool)
    (fr fa : Option Nat) (dw : Bool) (dt : Option Script) (rbf : Option RbfValue)
    (data : List Nat) (op : OutPoint) (wt : Nat) (m : InputMeta) :
    Api.tx_builder_finish w recipients utxos (some (op, InputStr.malformed, wt))
        unspendable cp man fr fa dw dt rbf data = Outcome.abort ∧
    decodeForeign (some (op, InputStr.wellFormed m, wt)) =
      Outcome.ok [(op, m, wt)] := by
  constructor
  · unfold Api.tx_builder_finish
    cases hres : resolveUtxos w utxos with
    | none => rfl
    | some must => simp [decodeForeign]
  · rfl

/-- C10: in `bump_fee_tx_builder_finish` the `enable_rbf()` call runs
after `enable_rbf_with_sequence(n_sequence)`, so with both supplied the
default RBF configuration overwrites the caller's sequence value (every
input of a successful build gets the default sequence 0xFFFFFFFD); the
caller's `n_sequence` takes effect only when `enable_rbf` is false. -/
theorem bump_fee_rbf_override (b : BumpFeeTxBuilder) (n : Nat) (nseq : Option Nat) :
    (bumpApplyRbf b nseq true).rbf = some RbfValue.rbfDefault ∧
    (bumpApplyRbf b (some n) false).rbf = some (RbfValue.value n) ∧
    (bumpApplyRbf b none false).rbf = b.rbf ∧
    (∀ (w : WalletState) (t : Nat) (orig : Nat × UnsignedTx) (frate : Nat)
        (sh : Option AddrStr) (ps : PsbtStr) (det : TransactionDetails),
      w.unconfirmed.find? (fun q => q.1 == t) = some orig →
      Api.bump_fee_tx_builder_finish w (TxidStr.valid t) frate sh true (some n) =
        Outcome.ok (ps, det) →
      ∃ p, ps = Psbt.serialize p ∧ ∀ i ∈ p.tx.txIns, i.sequence = 4294967293) := by
  refine ⟨?_, ?_, ?_, ?_⟩
  · cases nseq <;> rfl
  · rfl
  · rfl
  · intro w t orig frate sh ps det hfind h
    unfold Api.bump_fee_tx_builder_finish at h
    dsimp only at h
    rw [hfind] at h
    dsimp only at h
    cases hsh : decodeShrink sh with
    | abort => rw [hsh] at h; exact absurd h (by simp)
    | err e => rw [hsh] at h; exact absurd h (by simp)
    | ok shrink =>
      rw [hsh] at h
      dsimp only at h
      have hb : bumpApplyRbf
          { txid := t, feeRate := frate, allowShrinking := shrink, rbf := none }
          (some n) true =
          { txid := t, feeRate := frate, allowShrinking := shrink,
            rbf := some RbfValue.rbfDefault } := rfl
      rw [hb] at h
      simp only [finishBump, rbfSequence] at h
      simp only [exceptToOutcome, Outcome.ok.injEq, Prod.mk.injEq] at h
      obtain ⟨hps, _⟩ := h
      refine ⟨_, hps.symm, ?_⟩
      intro i hi
      simp only [List.mem_map] at hi
      obtain ⟨j, _, hj⟩ := hi
      subst hj
      rfl

/-- C10 witness: the concrete `W10` fee bump with `enable_rbf` and an
explicit `n_sequence` yields inputs carrying the default sequence. -/
theorem bump_fee_rbf_override_witness :
    ∃ p, PSB = Psbt.serialize p ∧ ∀ i ∈ p.tx.txIns, i.sequence = 4294967293 :=
  (bump_fee_rbf_override B0 5 none).2.2.2 W10 77 (77, TX0) 2 none PSB DETB rfl rfl

/-- C3: for valid PSBTs sharing one unsigned transaction, `combine_psbt`
succeeds and the result carries per input the union of the
partial-signature key sets of the two operands; for valid PSBTs with
differing unsigned transactions it fails with a typed error. -/
theorem combine_psbt_union_or_reject (A B : Psbt) :
    (A.tx = B.tx →
      ∃ C, Api.combine_psbt A.serialize B.serialize = Outcome.ok C.serialize ∧
        C.tx = A.tx ∧
        ∀ i, i < A.inputs.length → i < B.inputs.length → ∀ k,
          (k ∈ sigKeysAt C i ↔ (k ∈ sigKeysAt A i ∨ k ∈ sigKeysAt B i))) ∧
    (A.tx ≠ B.tx →
      Api.combine_psbt A.serialize B.serialize =
        Outcome.err ApiError.validationError) := by
  constructor
  · intro htx
    refine ⟨{ tx := A.tx, inputs := List.zipWith InputMeta.combine A.inputs B.inputs },
      ?_, rfl, ?_⟩
    · simp only [Api.combine_psbt, Psbt.serialize, PartiallySignedTransaction.new,
        Psbt.combine, if_pos htx]
    · intro i hiA hiB k
      have hgd := zipWith_getD InputMeta.combine
        { utxoValue := none, sigs := [], complete := false }
        { utxoValue := none, sigs := [], complete := false }
        { utxoValue := none, sigs := [], complete := false }
        A.inputs B.inputs i hiA hiB
      simp only [sigKeysAt]
      rw [hgd]
      exact mem_sigKeys_sigUnion _ _ k
  · intro hne
    simp only [Api.combine_psbt, Psbt.serialize, PartiallySignedTransaction.new,
      Psbt.combine, if_neg hne]

/-- C3 witness: combining the concrete cosigner PSBTs `A3` and `B3` over
one unsigned transaction succeeds with the per-input key union, and
combining `A3` with `D3` — a valid PSBT of a different unsigned
transaction and a different input count — fails with the typed error. -/
theorem combine_psbt_union_or_reject_witness :
    (∃ C, Api.combine_psbt A3.serialize B3.serialize = Outcome.ok C.serialize ∧
      C.tx = A3.tx ∧
      ∀ i, i < A3.inputs.length → i < B3.inputs.length → ∀ k,
        (k ∈ sigKeysAt C i ↔ (k ∈ sigKeysAt A3 i ∨ k ∈ sigKeysAt B3 i))) ∧
    Api.combine_psbt A3.serialize D3.serialize =
      Outcome.err ApiError.validationError :=
  ⟨(combine_psbt_union_or_reject A3 B3).1 rfl,
   (combine_psbt_union_or_reject A3 D3).2 (by decide)⟩

/-- C4: on every successful `tx_builder_finish`, with `rbf` absent every
input sequence of the built transaction is 0xFFFFFFFF; with the default
variant every input sequence is 0xFFFFFFFD; with an explicit value every
input sequence is that value, which is strictly below 0xFFFFFFFE. -/
theorem tx_builder_rbf_sequence (w : WalletState) (recipients : List ScriptAmount)
    (utxos : List OutPoint) (foreign_utxo : Option (OutPoint × InputStr × Nat))
    (unspendable : List OutPoint) (cp : ChangeSpendPolicy) (man : Bool)
    (fr fa : Option Nat) (dw : Bool) (dt : Option Script) (rbf : Option RbfValue)
    (data : List Nat) (ps : PsbtStr) (det : TransactionDetails)
    (h : Api.tx_builder_finish w recipients utxos foreign_utxo unspendable cp man
      fr fa dw dt rbf data = Outcome.ok (ps, det)) :
    ∃ p, ps = Psbt.serialize p ∧
      ((rbf = none → ∀ t ∈ p.tx.txIns, t.sequence = 4294967295) ∧
       (rbf = some RbfValue.rbfDefault →
         ∀ t ∈ p.tx.txIns, t.sequence = 4294967293) ∧
       (∀ n, rbf = some (RbfValue.value n) →
         n < 4294967294 ∧ ∀ t ∈ p.tx.txIns, t.sequence = n)) := by
  obtain ⟨must, fors, seq, selected, hres, hfor, hseq, hman, hass⟩ := finish_ok_inv h
  obtain ⟨p, hps, hins, _, _, _, _⟩ := assemble_ok_inv hass
  have hall : ∀ t ∈ p.tx.txIns, t.sequence = seq := by
    intro t ht
    rw [hins] at ht
    simp only [List.mem_map] at ht
    obtain ⟨u, _, hu⟩ := ht
    subst hu
    rfl
  refine ⟨p, hps, ?_, ?_, ?_⟩
  · intro hr
    subst hr
    simp only [rbfSequence, Except.ok.injEq] at hseq
    intro t ht
    rw [hall t ht]
    exact hseq.symm
  · intro hr
    subst hr
    simp only [rbfSequence, Except.ok.injEq] at hseq
    intro t ht
    rw [hall t ht]
    exact hseq.symm
  · intro n hr
    subst hr
    simp only [rbfSequence] at hseq
    by_cases hn : n < 4294967294
    · rw [if_pos hn] at hseq
      simp only [Except.ok.injEq] at hseq
      refine ⟨hn, ?_⟩
      intro t ht
      rw [hall t ht]
      exact hseq.symm
    · rw [if_neg hn] at hseq
      exact absurd hseq (by simp)

/-- C4 witness: the concrete successful `W1` build with the default RBF
variant has every input sequence equal to 0xFFFFFFFD. -/
theorem tx_builder_rbf_sequence_witness :
    ∃ p, PS1 = Psbt.serialize p ∧
      ((some RbfValue.rbfDefault = none →
         ∀ t ∈ p.tx.txIns, t.sequence = 4294967295) ∧
       (some RbfValue.rbfDefault = some RbfValue.rbfDefault →
         ∀ t ∈ p.tx.txIns, t.sequence = 4294967293) ∧
       (∀ n, some RbfValue.rbfDefault = some (RbfValue.value n) →
         n < 4294967294 ∧ ∀ t ∈ p.tx.txIns, t.sequence = n)) :=
  tx_builder_rbf_sequence W1 [{ script := 7, amount := 50000 }] [(1, 0)] none []
    ChangeSpendPolicy.changeAllowed true (some 1) none false none
    (some RbfValue.rbfDefault) [] PS1 DET1 rfl

/-- C7 counterexample: a successful rate-based build whose sub-dust
leftover folds into the fee reports fee 500, while `size_vbytes * rate`
is 140 counting the (dropped) change output and 109 without it — the fee
is not within ±1 sat of either. -/
theorem rate_fee_dust_fold_counterexample :
    Api.tx_builder_finish W7 [{ script := 7, amount := 9000 }] [(2, 0)] none []
        ChangeSpendPolicy.changeAllowed true (some 1) none false none none [] =
      Outcome.ok (PS7, DET7) ∧
    DET7.fee = 500 ∧ txVsize 1 1 * 1 = 109 ∧ txVsize 1 2 * 1 = 140 ∧
    140 + 1 < 500 :=
  ⟨rfl, rfl, rfl, rfl, by decide⟩

/-- C7 amended: every successful build balances exactly — the sum of
selected input values equals the sum of output values plus the reported
fee — and the reported fee lies in [policy fee, policy fee + dust): it
equals the policy fee (the absolute amount, or the rate times the size
computed with a change output) exactly unless a sub-dust leftover was
folded into it. -/
theorem build_balance_and_fee_bounds (w : WalletState)
    (recipients : List ScriptAmount) (utxos : List OutPoint)
    (foreign_utxo : Option (OutPoint × InputStr × Nat))
    (unspendable : List OutPoint) (cp : ChangeSpendPolicy) (man : Bool)
    (fr fa : Option Nat) (dw : Bool) (dt : Option Script) (rbf : Option RbfValue)
    (data : List Nat) (ps : PsbtStr) (det : TransactionDetails)
    (h : Api.tx_builder_finish w recipients utxos foreign_utxo unspendable cp man
      fr fa dw dt rbf data = Outcome.ok (ps, det)) :
    ∃ p, ps = Psbt.serialize p ∧
      psbtInputSum p = txOutputSum p.tx + det.fee ∧
      (polOf fr fa).feeFor p.tx.txIns.length
          (recipients.length + (if data.isEmpty then 0 else 1) + 1)
          (foreignVb foreign_utxo) ≤ det.fee ∧
      det.fee < (polOf fr fa).feeFor p.tx.txIns.length
          (recipients.length + (if data.isEmpty then 0 else 1) + 1)
          (foreignVb foreign_utxo) + DUST := by
  obtain ⟨must, fors, seq, selected, hres, hfor, hseq, hman, hass⟩ := finish_ok_inv h
  obtain ⟨p, hps, hins, hmeta, hbal, hlo, hhi⟩ := assemble_ok_inv hass
  have hvb : foreignExtra fors = foreignVb foreign_utxo := decodeForeign_extra hfor
  have hlen : p.tx.txIns.length = selected.length := by
    rw [hins, List.length_map]
  have hnout : (if (!data.isEmpty) = true then 1 else 0) =
      (if data.isEmpty = true then 0 else 1) := by
    cases hE : data.isEmpty <;> simp
  refine ⟨p, hps, ?_, ?_, ?_⟩
  · have hsum : psbtInputSum p = sumValues selected := by
      unfold psbtInputSum
      rw [hmeta, sum_inputMeta]
    rw [hsum]
    exact hbal
  · rw [hlen, ← hvb, ← hnout]
    exact hlo
  · rw [hlen, ← hvb, ← hnout]
    exact hhi

/-- C7 witness: the concrete successful `W1` build balances
(100000 = 99860 + 140) with its fee inside the policy bounds. -/
theorem build_balance_and_fee_bounds_witness :
    ∃ p, PS1 = Psbt.serialize p ∧
      psbtInputSum p = txOutputSum p.tx + DET1.fee ∧
      (polOf (some 1) none).feeFor p.tx.txIns.length
          (([{ script := 7, amount := 50000 }] : List ScriptAmount).length +
            (if ([] : List Nat).isEmpty then 0 else 1) + 1)
          (foreignVb none) ≤ DET1.fee ∧
      DET1.fee < (polOf (some 1) none).feeFor p.tx.txIns.length
          (([{ script := 7, amount := 50000 }] : List ScriptAmount).length +
            (if ([] : List Nat).isEmpty then 0 else 1) + 1)
          (foreignVb none) + DUST :=
  build_balance_and_fee_bounds W1 [{ script := 7, amount := 50000 }] [(1, 0)] none
    [] ChangeSpendPolicy.changeAllowed true (some 1) none false none
    (some RbfValue.rbfDefault) [] PS1 DET1 rfl

/-- C6 counterexample: a call with `manually_selected_only` set that also
supplies a foreign UTXO succeeds with an input set strictly larger than
the caller's must-include outpoint list — the foreign outpoint is spent
too — so the selected set does not equal the must-include list. -/
theorem manual_selection_foreign_counterexample :
    Api.tx_builder_finish W1 [{ script := 7, amount := 50000 }] [(1, 0)]
        (some ((9, 9), InputStr.wellFormed
          { utxoValue := some 60000, sigs := [], complete := false }, 400)) []
        ChangeSpendPolicy.changeAllowed true (some 1) none false none none [] =
      Outcome.ok (Psbt.serialize PF, DETF) ∧
    PF.tx.txIns.map (·.previousOutput) = [(1, 0), (9, 9)] ∧
    ([(1, 0), (9, 9)] : List OutPoint) ≠ [(1, 0)] :=
  ⟨rfl, rfl, by decide⟩

/-- C6 amended: with `manually_selected_only` set, a successful build's
input outpoints are exactly the caller's explicitly supplied inputs — the
must-include outpoint list followed by the foreign outpoint when one is
supplied — and never include automatically drawn wallet UTXOs; and when
those inputs' total value cannot cover the recipients plus the fee, the
call fails with InsufficientFunds, returning no plan. -/
theorem manual_selection_exact_and_insufficient (w : WalletState)
    (recipients : List ScriptAmount) (utxos : List OutPoint)
    (foreign_utxo : Option (OutPoint × InputStr × Nat))
    (unspendable : List OutPoint) (cp : ChangeSpendPolicy)
    (fr fa : Option Nat) (dw : Bool) (dt : Option Script) (rbf : Option RbfValue)
    (data : List Nat) (must : List LocalUtxo)
    (fors : List (OutPoint × InputMeta × Nat)) (seq : Nat)
    (hres : resolveUtxos w utxos = some must)
    (hfor : decodeForeign foreign_utxo = Outcome.ok fors)
    (hok : (recipients.isEmpty && !dw) = false)
    (hseq : rbfSequence rbf = Except.ok seq) :
    (∀ ps det, Api.tx_builder_finish w recipients utxos foreign_utxo unspendable
        cp true fr fa dw dt rbf data = Outcome.ok (ps, det) →
      ∃ p, ps = Psbt.serialize p ∧
        p.tx.txIns.map (·.previousOutput) = utxos ++ fors.map (·.1)) ∧
    (sumValues (must.map toCand ++ fors.map foreignCand) <
        (recipients.map (·.amount)).sum +
          (polOf fr fa).feeFor (must.length + fors.length)
            (recipients.length + (if data.isEmpty then 0 else 1) + 1)
            (foreignExtra fors) →
      Api.tx_builder_finish w recipients utxos foreign_utxo unspendable cp true
        fr fa dw dt rbf data = Outcome.err ApiError.insufficientFunds) := by
  constructor
  · intro ps det h
    obtain ⟨must', fors', seq', selected, hres', hfor', hseq', hman, hass⟩ :=
      finish_ok_inv h
    obtain ⟨p, hps, hins, _, _, _, _⟩ := assemble_ok_inv hass
    rw [hres] at hres'
    have hmm : must = must' := Option.some.inj hres'
    rw [hfor] at hfor'
    have hff : fors = fors' := by
      simp only [Outcome.ok.injEq] at hfor'
      exact hfor'
    refine ⟨p, hps, ?_⟩
    rw [hins, map_prevOut_mkIns, hman rfl, ← hmm, ← hff, List.map_append,
      map_outpoint_toCand, map_outpoint_foreignCand, resolveUtxos_map hres]
  · intro hlt
    have hnout : (if (!data.isEmpty) = true then 1 else 0) =
        (if data.isEmpty = true then 0 else 1) := by
      cases hE : data.isEmpty <;> simp
    have hc : sumValues (List.map toCand must ++ List.map foreignCand fors) <
        (recipients.map (·.amount)).sum +
          ((applyFeeSetters fr fa).getD (FeePolicy.rate 1)).feeFor
            (List.map toCand must ++ List.map foreignCand fors).length
            (recipients.length + (if (!data.isEmpty) = true then 1 else 0) + 1)
            (foreignExtra fors) := by
      rw [List.length_append, List.length_map, List.length_map, hnout]
      exact hlt
    have hassm : assemble recipients (!data.isEmpty) dt seq
        ((applyFeeSetters fr fa).getD (.rate 1)) (foreignExtra fors)
        (must.map toCand ++ List.map foreignCand fors) =
        Except.error ApiError.insufficientFunds := by
      simp only [assemble]
      rw [if_pos hc]
    unfold Api.tx_builder_finish
    rw [hres]
    dsimp only
    rw [hfor]
    dsimp only
    simp only [txBuilderFinishCore]
    rw [hok]
    rw [if_neg Bool.false_ne_true]
    rw [hseq]
    dsimp only
    rw [show chooseSelected true dw ((applyFeeSetters fr fa).getD (.rate 1))
        ((recipients.map (·.amount)).sum)
        (recipients.length + (if data.isEmpty then 0 else 1) + 1)
        (foreignExtra fors)
        (must.map toCand ++ List.map foreignCand fors)
        ((eligible w unspendable (must.map (·.outpoint)) cp).map toCand) =
      some (must.map toCand ++ List.map foreignCand fors) from rfl]
    dsimp only
    rw [hassm]
    rfl

/-- C6 witness: the spec scenario — must-include UTXOs summing 10000 sats
against a 20000-sat recipient under `manually_selected_only`, no foreign
UTXO — fails with InsufficientFunds. -/
theorem manual_selection_exact_and_insufficient_witness :
    Api.tx_builder_finish W6 [{ script := 7, amount := 20000 }] [(3, 0)] none []
        ChangeSpendPolicy.changeAllowed true (some 1) none false none none [] =
      Outcome.err ApiError.insufficientFunds :=
  (manual_selection_exact_and_insufficient W6 [{ script := 7, amount := 20000 }]
    [(3, 0)] none [] ChangeSpendPolicy.changeAllowed (some 1) none false none
    none []
    [{ outpoint := (3, 0), value := 10000, keychain := .external, isSpent := false }]
    [] 4294967295 rfl rfl rfl rfl).2 (by decide)

end BdkF
